import Mathlib

/-!
Verification of the dm_env_rpc tensor codec, bounds model, spec manager and
request/response channel against their natural-language specification.

The Python sources are shallowly embedded:
* `dm_env_rpc/v1/tensor_utils.py` — `reshape_array`, `unpack_tensor`,
  `pack_tensor` and the per-dtype packers, over row-major flat payloads;
* `dm_env_rpc/v1/tensor_spec_utils.py` — `bounds`, `set_bounds`, `_get_value`,
  `_can_cast`, `_np_range_info`;
* `dm_env_rpc/v1/spec_manager.py` — `SpecManager.pack`, `_assert_shapes_match`;
* `dm_env_rpc/v1/message_utils.py` / `connection.py` —
  `unpack_environment_response`, `Connection.send`.

NumPy operations used by that code (`ndarray.shape` assignment, `np.full`,
`np.broadcast_to`, `astype` casting rules) are embedded from NumPy's documented
semantics.  Machine integers are modelled as `Int` with explicit wrap-around
where a cast overflows.
-/

namespace DmEnvRpc

/-- Errors raised by the embedded code.  Each constructor stands for one
`raise` site (ValueError / TypeError / KeyError / StopIteration) of the
Python sources or of the NumPy operations they invoke. -/
inductive RpcError where
  /-- reshape_array: "Scalar tensors must have exactly 1 element but had {} elements." -/
  | scalarMultipleElements (n : Nat)
  /-- NumPy shape assignment: "cannot reshape array of size ... into shape ...". -/
  | cannotReshape (size : Nat) (shape : List Int)
  /-- NumPy shape assignment: "can only specify one unknown dimension". -/
  | multipleUnknownDims
  /-- StopIteration from taking the first element of an empty flat iterator. -/
  | stopIteration
  /-- A Python TypeError, with its message. -/
  | typeError (msg : String)
  /-- NumPy broadcast_to: "all elements of broadcast shape must be non-negative". -/
  | broadcastNegativeDim
  /-- tensor_spec_utils: variable length shapes can only have scalar ranges. -/
  | variableShapeScalarRangesOnly
  /-- tensor_spec_utils: TensorSpec has a non-numeric dtype. -/
  | nonNumericDtype
  /-- tensor_spec_utils: min/max payload type does not match the spec dtype. -/
  | boundTypeMismatch (which : String)
  /-- tensor_spec_utils: bounds cannot be safely cast to the spec dtype. -/
  | cannotCastBounds
  /-- tensor_spec_utils: min is larger than max. -/
  | minLargerThanMax
  /-- set_bounds: provided bound shape is incompatible with the spec shape. -/
  | incompatibleBoundShape (which : String)
  /-- spec_manager: KeyError for a name absent from the manager. -/
  | keyNotFound (name : String)
  /-- spec_manager `_assert_shapes_match`: tensor shape does not match spec shape. -/
  | shapeMismatch (name : String) (tensorShape specShape : List Int)
  deriving DecidableEq, Repr

/-- A native NumPy value as seen by the codec: either a scalar or an
n-dimensional array stored as its shape plus the row-major flat element list.
A NumPy 0-d array compares equal to the corresponding scalar, so it is
represented by the `scalar` constructor; genuine arrays have a non-empty
dimension list. -/
inductive TensorValue (α : Type) where
  | scalar (a : α)
  | array (dims : List Nat) (flat : List α)
  deriving DecidableEq, Repr

instance {ε α : Type} [DecidableEq ε] [DecidableEq α] : DecidableEq (Except ε α) := fun a b =>
  match a, b with
  | .ok x, .ok y => if h : x = y then .isTrue (by rw [h]) else .isFalse (by simp [h])
  | .error x, .error y => if h : x = y then .isTrue (by rw [h]) else .isFalse (by simp [h])
  | .ok _, .error _ => .isFalse (by simp)
  | .error _, .ok _ => .isFalse (by simp)

namespace TensorValue

/-- The row-major flat element list (`value.ravel()`). -/
def flatten {α : Type} : TensorValue α → List α
  | .scalar a => [a]
  | .array _ flat => flat

/-- `value.shape`, as the (possibly empty) list of `int` dimensions that is
written into the Tensor proto's `shape` field. -/
def shapeInts {α : Type} : TensorValue α → List Int
  | .scalar _ => []
  | .array dims _ => dims.map Int.ofNat

/-- `value.size`: the number of elements. -/
def size {α : Type} : TensorValue α → Nat
  | .scalar _ => 1
  | .array _ flat => flat.length

/-- A value is well formed when its flat payload length is the product of its
dimensions and an array has at least one dimension (0-d arrays are the
`scalar` constructor). -/
def wfb {α : Type} : TensorValue α → Bool
  | .scalar _ => true
  | .array dims flat => decide (dims ≠ []) && decide (flat.length = dims.prod)

end TensorValue

/-- The wire `Tensor` proto: a `shape` of int32 dimensions and exactly one
payload holding the flat element list.  The payload oneof is represented by
the element type `α`; every payload variant of the proto (floats, doubles,
int8s as bytes, ..., strings) stores the elements flattened in row-major
order, so all of them are embedded as the flat list the packers produce. -/
structure Tensor (α : Type) where
  shape : List Int
  payload : List α
  deriving DecidableEq, Repr

/-- NumPy `array.shape = shape` / `np.reshape` on a flat array of `size`
elements: every negative dimension is an unknown to infer; more than one
unknown is an error; one unknown is inferred by exact division of `size` by
the product of the known dimensions (division by zero or a remainder is a
reshape error); with no unknown the product of the dimensions must equal
`size` exactly. -/
def npSetShape (size : Nat) (shape : List Int) : Except RpcError (List Nat) :=
  let unknowns := shape.countP (fun d => decide (d < 0))
  if 1 < unknowns then .error .multipleUnknownDims
  else if unknowns = 1 then
    let known := ((shape.filter (fun d => decide (0 ≤ d))).map Int.toNat).prod
    if known ≠ 0 ∧ size % known = 0 then
      .ok (shape.map (fun d => if d < 0 then size / known else d.toNat))
    else .error (.cannotReshape size shape)
  else
    if (shape.map Int.toNat).prod = size then .ok (shape.map Int.toNat)
    else .error (.cannotReshape size shape)

/-- NumPy `np.full(dims, a)`: the array of shape `dims` with every element `a`. -/
def npFull {α : Type} (dims : List Nat) (a : α) : TensorValue α :=
  .array dims (List.replicate dims.prod a)

/-- tensor_utils.reshape_array: reshapes a flat `array` to `shape` using
dm_env_rpc's rules.  Non-empty shape: a single element is broadcast with
`np.full(np.maximum(shape, 1), array[0])`; otherwise NumPy shape assignment
applies.  Empty shape: exactly one element is required and returned as a
scalar. -/
def reshape_array {α : Type} (array : List α) (shape : List Int) :
    Except RpcError (TensorValue α) :=
  if shape.isEmpty then
    match array with
    | [a] => .ok (.scalar a)
    | _ => .error (.scalarMultipleElements array.length)
  else
    match array with
    | [a] => .ok (npFull (shape.map (fun d => (max d 1).toNat)) a)
    | _ =>
      match npSetShape array.length shape with
      | .ok dims => .ok (.array dims array)
      | .error e => .error e

/-- tensor_utils.unpack_tensor: unpack the flat payload (the per-dtype packers
only flatten, so `unpack_proto` yields `payload` itself) and reshape it
according to the proto's `shape`. -/
def unpack_tensor {α : Type} (t : Tensor α) : Except RpcError (TensorValue α) :=
  reshape_array t.payload t.shape

/-- tensor_utils.pack_tensor over a value that is already of the target dtype
(the claim's "v representable at D"), for which the `astype` step is the
identity: record `value.shape`, and either pack the full flat list, or — when
`try_compress` is set — pack only the first element if all elements equal it.
`next(value.flat)` on an empty flat iterator raises StopIteration. -/
def pack_tensor {α : Type} [DecidableEq α] (v : TensorValue α) (tryCompress : Bool) :
    Except RpcError (Tensor α) :=
  let flat := v.flatten
  let shape := v.shapeInts
  if tryCompress then
    match flat with
    | [] => .error .stopIteration
    | a :: _ => if flat.all (fun x => decide (x = a)) then .ok ⟨shape, [a]⟩ else .ok ⟨shape, flat⟩
  else .ok ⟨shape, flat⟩

/-- Branches three and four of claim C2's case analysis, shared by the
claim-as-stated and the amended reading: exactly one `-1` dimension is
inferred as the flat count divided by the product of the other dimensions,
requiring exact division; otherwise the flat count must equal the product of
the shape exactly. -/
def claimedInferOrExact {α : Type} (payload : List α) (shape : List Int) :
    Except RpcError (TensorValue α) :=
  if shape.countP (fun d => decide (d = -1)) = 1 then
    let known := ((shape.filter (fun d => decide (d ≠ -1))).map Int.toNat).prod
    if known ≠ 0 ∧ payload.length % known = 0 then
      .ok (.array (shape.map (fun d => if d = -1 then payload.length / known else d.toNat))
        payload)
    else .error (.cannotReshape payload.length shape)
  else
    if (shape.map Int.toNat).prod = payload.length then
      .ok (.array (shape.map Int.toNat) payload)
    else .error (.cannotReshape payload.length shape)

/-- The unpack case analysis exactly as claim C2 states it: if the shape is
empty, exactly one flat element is required and returned as a scalar; else if
the flat count is 1 and the shape requests more than one element, an array of
that shape is filled with the single value; else if the shape has exactly one
`-1` it is inferred by exact division; else the flat count must equal the
product of the shape. -/
def unpack_tensor_claimed {α : Type} (t : Tensor α) : Except RpcError (TensorValue α) :=
  if t.shape.isEmpty then
    match t.payload with
    | [a] => .ok (.scalar a)
    | _ => .error (.scalarMultipleElements t.payload.length)
  else
    match t.payload with
    | [a] =>
      if 1 < t.shape.prod then
        .ok (.array (t.shape.map Int.toNat) (List.replicate (t.shape.map Int.toNat).prod a))
      else claimedInferOrExact t.payload t.shape
    | _ => claimedInferOrExact t.payload t.shape

/-- Claim C2 amended to the code's actual broadcast rule: with a non-empty
shape, a single flat element is always broadcast to an array of shape
`max(d, 1)` per dimension; the remaining branches are as the claim states
them. -/
def unpack_tensor_amended {α : Type} (t : Tensor α) : Except RpcError (TensorValue α) :=
  if t.shape.isEmpty then
    match t.payload with
    | [a] => .ok (.scalar a)
    | _ => .error (.scalarMultipleElements t.payload.length)
  else
    match t.payload with
    | [a] =>
      .ok (.array (t.shape.map (fun d => (max d 1).toNat))
        (List.replicate (t.shape.map (fun d => (max d 1).toNat)).prod a))
    | _ => claimedInferOrExact t.payload t.shape

/-- A wire shape is well formed per the data model: every dimension is at
least `-1` and at most one dimension is `-1`. -/
def wfShape (shape : List Int) : Prop :=
  (∀ d ∈ shape, -1 ≤ d) ∧ shape.countP (fun d => decide (d = -1)) ≤ 1

/-! ### Helper lemmas for the codec -/

theorem nat_list_map_eq_self {l : List Nat} {f : Nat → Nat} (h : ∀ d ∈ l, f d = d) :
    l.map f = l := by
  induction l with
  | nil => rfl
  | cons a t ih => simp_all

theorem nat_prod_eq_one {l : List Nat} (h : l.prod = 1) : ∀ d ∈ l, d = 1 := by
  induction l with
  | nil => simp
  | cons a t ih =>
    rw [List.prod_cons] at h
    have ha : a = 1 := Nat.dvd_one.mp ⟨t.prod, h.symm⟩
    have ht : t.prod = 1 := by rw [ha, one_mul] at h; exact h
    intro d hd
    rcases List.mem_cons.mp hd with hd | hd
    · exact hd ▸ ha
    · exact ih ht d hd

theorem nat_prod_pos_mem {l : List Nat} (h : 0 < l.prod) : ∀ d ∈ l, 1 ≤ d := by
  intro d hd
  by_contra hlt
  have hd0 : d = 0 := by omega
  have : l.prod = 0 := by
    rw [List.prod_eq_zero_iff]
    exact hd0 ▸ hd
  omega

theorem npSetShape_map_ofNat (dims : List Nat) :
    npSetShape dims.prod (dims.map Int.ofNat) = .ok dims := by
  have hcount : (dims.map Int.ofNat).countP (fun d => decide (d < 0)) = 0 := by
    rw [List.countP_eq_zero]
    intro a ha
    rw [List.mem_map] at ha
    obtain ⟨d, _, rfl⟩ := ha
    simp
  have hmap : (dims.map Int.ofNat).map Int.toNat = dims := by
    rw [List.map_map]
    exact nat_list_map_eq_self (fun d _ => Int.toNat_ofNat d)
  simp [npSetShape, hcount, hmap]

theorem reshape_array_single {α : Type} (a : α) (c : Int) (cs : List Int) :
    reshape_array [a] (c :: cs) = .ok (npFull ((c :: cs).map (fun d => (max d 1).toNat)) a) :=
  rfl

theorem reshape_array_not_single {α : Type} (flat : List α) (c : Int) (cs : List Int)
    (h : ∀ a : α, flat ≠ [a]) :
    reshape_array flat (c :: cs) =
      match npSetShape flat.length (c :: cs) with
      | .ok dims => .ok (.array dims flat)
      | .error e => .error e := by
  cases flat with
  | nil => rfl
  | cons a t =>
    cases t with
    | nil => exact absurd rfl (h a)
    | cons b r => rfl

/-- The round trip shared by C1 and C9: packing without compression and
unpacking restores the value. -/
theorem unpack_pack_eq {α : Type} [DecidableEq α] (v : TensorValue α)
    (h : v.wfb = true) : (pack_tensor v false >>= unpack_tensor) = .ok v := by
  cases v with
  | scalar a => rfl
  | array dims flat =>
    simp only [TensorValue.wfb, Bool.and_eq_true, decide_eq_true_eq] at h
    obtain ⟨hne, hlen⟩ := h
    cases dims with
    | nil => exact absurd rfl hne
    | cons d ds =>
      show unpack_tensor ⟨(d :: ds).map Int.ofNat, flat⟩ = .ok (.array (d :: ds) flat)
      rw [unpack_tensor]
      show reshape_array flat (Int.ofNat d :: ds.map Int.ofNat) = .ok (.array (d :: ds) flat)
      match flat, hlen with
      | [a], hlen =>
        have hprod : (d :: ds).prod = 1 := by simpa using hlen.symm
        have hone := nat_prod_eq_one hprod
        have hmap : ((d :: ds).map Int.ofNat).map (fun x => (max x 1).toNat) = d :: ds := by
          rw [List.map_map]
          exact nat_list_map_eq_self (fun x hx => by rw [hone x hx]; rfl)
        simp only [List.map_cons] at hmap
        rw [reshape_array_single]
        simp only [List.map_cons]
        rw [hmap, npFull, hprod]
        rfl
      | [], hlen =>
        have key := npSetShape_map_ofNat (d :: ds)
        rw [← hlen] at key
        simp only [List.map_cons] at key
        rw [reshape_array_not_single _ _ _ (fun a => by simp), key]
      | a :: b :: rest, hlen =>
        have key := npSetShape_map_ofNat (d :: ds)
        rw [← hlen] at key
        simp only [List.map_cons] at key
        rw [reshape_array_not_single _ _ _ (fun x => by simp), key]

/-- C1: for every supported payload dtype and every well-formed scalar or
array value of that dtype, unpacking the packed tensor restores the value
exactly (the payload elements are stored and returned verbatim, so equality
is bit-exact for floats). -/
theorem C1_pack_unpack_round_trip {α : Type} [DecidableEq α] (v : TensorValue α)
    (h : v.wfb = true) : (pack_tensor v false >>= unpack_tensor) = .ok v :=
  unpack_pack_eq v h

/-- C1 witness: a concrete 2x2 array round-trips. -/
theorem C1_witness :
    (pack_tensor (.array [2, 2] [1, 2, 3, 4] : TensorValue Int) false >>= unpack_tensor)
      = .ok (.array [2, 2] [1, 2, 3, 4]) :=
  C1_pack_unpack_round_trip (.array [2, 2] [1, 2, 3, 4]) (by decide)

theorem list_map_congr {α β : Type} {l : List α} {f g : α → β}
    (h : ∀ a ∈ l, f a = g a) : l.map f = l.map g := by
  induction l with
  | nil => rfl
  | cons a t ih => simp_all

/-- On a shape whose dimensions are all at least `-1` and which has at most
one `-1`, NumPy's reshape (treating every negative dimension as the unknown)
agrees with the claim's reading (treating exactly `-1` as the unknown). -/
theorem npSetShape_eq_claimed {α : Type} (payload : List α) (shape : List Int)
    (hge : ∀ d ∈ shape, -1 ≤ d)
    (hcount : shape.countP (fun d => decide (d = -1)) ≤ 1) :
    (match npSetShape payload.length shape with
      | .ok dims => .ok (.array dims payload)
      | .error e => .error e) = claimedInferOrExact payload shape := by
  have hcong : ∀ d ∈ shape, (decide (d < 0)) = (decide (d = -1)) := by
    intro d hd
    exact decide_eq_decide.mpr (by have := hge d hd; omega)
  have hcnt : shape.countP (fun d => decide (d < 0))
      = shape.countP (fun d => decide (d = -1)) :=
    List.countP_congr (fun d hd => by rw [hcong d hd])
  have hfil : shape.filter (fun d => decide (0 ≤ d))
      = shape.filter (fun d => decide (d ≠ -1)) :=
    List.filter_congr (fun d hd => decide_eq_decide.mpr (by have := hge d hd; omega))
  rw [npSetShape, claimedInferOrExact]
  simp only [hcnt, hfil]
  have hnot : ¬ (1 < shape.countP (fun d => decide (d = -1))) := by omega
  rw [if_neg hnot]
  by_cases hone : shape.countP (fun d => decide (d = -1)) = 1
  · rw [if_pos hone, if_pos hone]
    by_cases hdiv : ((shape.filter (fun d => decide (d ≠ -1))).map Int.toNat).prod ≠ 0 ∧
        payload.length % ((shape.filter (fun d => decide (d ≠ -1))).map Int.toNat).prod = 0
    · rw [if_pos hdiv, if_pos hdiv]
      have hm : shape.map (fun d =>
            if d < 0 then payload.length /
              ((shape.filter (fun d => decide (d ≠ -1))).map Int.toNat).prod
            else d.toNat)
          = shape.map (fun d =>
            if d = -1 then payload.length /
              ((shape.filter (fun d => decide (d ≠ -1))).map Int.toNat).prod
            else d.toNat) := by
        refine list_map_congr (fun d hd => ?_)
        have := hge d hd
        by_cases hneg : d < 0
        · rw [if_pos hneg, if_pos (by omega)]
        · rw [if_neg hneg, if_neg (by omega)]
      rw [hm]
    · rw [if_neg hdiv, if_neg hdiv]
  · rw [if_neg hone, if_neg hone]
    by_cases hx : (shape.map Int.toNat).prod = payload.length
    · rw [if_pos hx, if_pos hx]
    · rw [if_neg hx, if_neg hx]

/-- C2 counterexample: a tensor of shape `[0]` holding one flat element.  The
code broadcasts it to an array of shape `[1]`; the claim's case analysis
(shape requests zero elements, so no broadcast, no `-1`, and `1 ≠ 0`) demands
a reshape error. -/
theorem C2_counterexample :
    unpack_tensor (⟨[0], [7]⟩ : Tensor Int) = .ok (.array [1] [7]) ∧
      unpack_tensor_claimed (⟨[0], [7]⟩ : Tensor Int) = .error (.cannotReshape 1 [0]) :=
  ⟨rfl, rfl⟩

/-- C2 (amended): on tensors whose shape satisfies the data model (dimensions
at least `-1`, at most one `-1`), unpack_tensor follows the claim's case
analysis with the broadcast branch corrected: a single flat element with a
non-empty shape is always broadcast to an array of shape `max(d, 1)` per
dimension; the remaining branches are as claimed. -/
theorem C2_unpack_case_analysis {α : Type} (t : Tensor α) (h : wfShape t.shape) :
    unpack_tensor t = unpack_tensor_amended t := by
  obtain ⟨hge, hcount⟩ := h
  obtain ⟨shape, payload⟩ := t
  cases shape with
  | nil =>
    cases payload with
    | nil => rfl
    | cons a t' => cases t' with | nil => rfl | cons b r => rfl
  | cons c cs =>
    simp only at hge hcount
    cases payload with
    | nil =>
      show reshape_array [] (c :: cs) = unpack_tensor_amended ⟨c :: cs, []⟩
      rw [reshape_array_not_single _ _ _ (fun a => by simp)]
      exact npSetShape_eq_claimed [] (c :: cs) hge hcount
    | cons a t' =>
      cases t' with
      | nil => rfl
      | cons b r =>
        show reshape_array (a :: b :: r) (c :: cs) = unpack_tensor_amended ⟨c :: cs, a :: b :: r⟩
        rw [reshape_array_not_single _ _ _ (fun x => by simp)]
        exact npSetShape_eq_claimed (a :: b :: r) (c :: cs) hge hcount

/-- C2 witness: shape `[2, -1]` with six flat elements infers the inner
dimension as three, under both the code and the amended case analysis. -/
theorem C2_witness :
    unpack_tensor (⟨[2, -1], [1, 2, 3, 4, 5, 6]⟩ : Tensor Int)
      = unpack_tensor_amended (⟨[2, -1], [1, 2, 3, 4, 5, 6]⟩ : Tensor Int) :=
  C2_unpack_case_analysis ⟨[2, -1], [1, 2, 3, 4, 5, 6]⟩ (by constructor <;> decide)

/-- C9: packing with `try_compress=True` and unpacking gives the same result
as packing with `try_compress=False` and unpacking, for every well-formed
value with at least one element, whether or not the all-elements-equal
compression triggered. -/
theorem C9_compression_invisible {α : Type} [DecidableEq α] (v : TensorValue α)
    (hw : v.wfb = true) (hs : 1 ≤ v.size) :
    (pack_tensor v true >>= unpack_tensor) = (pack_tensor v false >>= unpack_tensor) := by
  cases v with
  | scalar a =>
    have hall : ([a].all fun x => decide (x = a)) = true := by simp
    simp [pack_tensor, TensorValue.flatten, TensorValue.shapeInts, hall]
  | array dims flat =>
    simp only [TensorValue.wfb, Bool.and_eq_true, decide_eq_true_eq] at hw
    obtain ⟨hne, hlen⟩ := hw
    match flat, hlen, hs with
    | a :: rest, hlen, hs =>
      by_cases hall : ((a :: rest).all fun x => decide (x = a)) = true
      · have hpackT : pack_tensor (.array dims (a :: rest)) true
            = .ok ⟨dims.map Int.ofNat, [a]⟩ := by
          simp [pack_tensor, TensorValue.flatten, TensorValue.shapeInts, hall]
        rw [hpackT, unpack_pack_eq (.array dims (a :: rest))
          (by simp [TensorValue.wfb, hne, hlen])]
        show unpack_tensor ⟨dims.map Int.ofNat, [a]⟩ = .ok (.array dims (a :: rest))
        cases dims with
        | nil => exact absurd rfl hne
        | cons d ds =>
          have hpos : 0 < (d :: ds).prod := by
            rw [← hlen]; exact Nat.succ_le_of_lt (Nat.pos_of_ne_zero (by simp))
          have hge1 := nat_prod_pos_mem hpos
          have hmap : ((d :: ds).map Int.ofNat).map (fun x => (max x 1).toNat) = d :: ds := by
            rw [List.map_map]
            refine nat_list_map_eq_self (fun x hx => ?_)
            have h1 := hge1 x hx
            have h2 : (1 : Int) ≤ Int.ofNat x := by
              rw [Int.ofNat_eq_natCast]; exact_mod_cast h1
            simp only [Function.comp]
            rw [max_eq_left h2]
            exact Int.toNat_ofNat x
          show reshape_array [a] (Int.ofNat d :: ds.map Int.ofNat) = .ok (.array (d :: ds) (a :: rest))
          rw [reshape_array_single]
          simp only [List.map_cons] at hmap ⊢
          rw [hmap, npFull]
          have hrep : a :: rest = List.replicate (d :: ds).prod a := by
            refine List.eq_replicate_iff.mpr ⟨hlen, fun b hb => ?_⟩
            simp only [List.all_eq_true, decide_eq_true_eq] at hall
            exact hall b hb
          rw [← hrep]
      · have hpackT : pack_tensor (.array dims (a :: rest)) true
            = .ok ⟨dims.map Int.ofNat, a :: rest⟩ := by
          simp [pack_tensor, TensorValue.flatten, TensorValue.shapeInts, hall]
        have hpackF : pack_tensor (.array dims (a :: rest)) false
            = .ok ⟨dims.map Int.ofNat, a :: rest⟩ := rfl
        rw [hpackT, hpackF]

/-- C9 witness: a concrete all-equal array with four elements. -/
theorem C9_witness :
    (pack_tensor (.array [2, 2] [4, 4, 4, 4] : TensorValue Int) true >>= unpack_tensor)
      = (pack_tensor (.array [2, 2] [4, 4, 4, 4] : TensorValue Int) false >>= unpack_tensor) :=
  C9_compression_invisible (.array [2, 2] [4, 4, 4, 4]) (by decide) (by decide)

/-- C10: for every well-formed value with zero elements, packing with
`try_compress=True` raises (StopIteration from `next` on the empty flat
iterator) while packing the same value with `try_compress=False` succeeds. -/
theorem C10_compress_empty_raises {α : Type} [DecidableEq α] (v : TensorValue α)
    (hw : v.wfb = true) (h0 : v.size = 0) :
    pack_tensor v true = .error .stopIteration ∧ (pack_tensor v false).isOk = true := by
  cases v with
  | scalar a => exact absurd h0 (by simp [TensorValue.size])
  | array dims flat =>
    have hnil : flat = [] := List.length_eq_zero.mp h0
    subst hnil
    exact ⟨rfl, rfl⟩

/-- C10 witness: the empty array of shape `[0]`. -/
theorem C10_witness :
    pack_tensor (.array [0] [] : TensorValue Int) true = .error .stopIteration ∧
      (pack_tensor (.array [0] [] : TensorValue Int) false).isOk = true :=
  C10_compress_empty_raises (.array [0] []) (by decide) (by decide)

/-! ### Dtypes and the pack-time casting rule (tensor_utils.pack_tensor) -/

/-- The dm_env_rpc payload dtypes handled by the numeric embedding (the
`DataType` enum without PROTO, whose payloads are opaque messages). -/
inductive DType where
  | float32 | float64 | int8 | int32 | int64 | uint8 | uint32 | uint64 | bool | string
  deriving DecidableEq, Repr, Fintype

def DType.isFloat : DType → Bool
  | .float32 | .float64 => true
  | _ => false

def DType.isSignedInt : DType → Bool
  | .int8 | .int32 | .int64 => true
  | _ => false

def DType.isUnsignedInt : DType → Bool
  | .uint8 | .uint32 | .uint64 => true
  | _ => false

def DType.isInteger (d : DType) : Bool := d.isSignedInt || d.isUnsignedInt

/-- `issubclass(np_type, np.number)`: floats and integers; `np.bool_` and
`np.str_` are not numbers. -/
def DType.isNumeric (d : DType) : Bool := d.isFloat || d.isInteger

/-- Bit width of the integer dtypes (0 for the others). -/
def DType.intBits : DType → Nat
  | .int8 | .uint8 => 8
  | .int32 | .uint32 => 32
  | .int64 | .uint64 => 64
  | _ => 0

/-- NumPy dtype-level `casting='safe'` on this dtype set: bool casts safely
to everything, nothing else casts to bool; same-signedness integer widening
is safe; unsigned-to-signed needs strictly more bits; signed-to-unsigned and
float-to-integer are never safe; only int8/uint8 fit float32's mantissa,
while NumPy's table marks every integer dtype (including int64/uint64) safe
to float64; float widening is safe; numeric-to-string is safe (a wide enough
unicode dtype holds any number), string only casts to string. -/
def safeCastDtype (a b : DType) : Bool :=
  if a = b then true
  else if a = .bool then true
  else if b = .bool then false
  else if a = .string then false
  else if b = .string then true
  else if a.isFloat then a = .float32 && b = .float64
  else if b.isFloat then
    match b with
    | .float32 => a.intBits ≤ 8
    | _ => true
  else if a.isUnsignedInt then
    if b.isUnsignedInt then a.intBits ≤ b.intBits
    else a.intBits < b.intBits
  else
    if b.isSignedInt then a.intBits ≤ b.intBits
    else false

/-- NumPy's kind ordering used by `same_kind` casting
(`dtype_kind_to_ordering`): bool 0, unsigned 1, signed 2, float 4; strings
have no ordering (only safe casts reach them). -/
def kindRank : DType → Option Nat
  | .bool => some 0
  | .uint8 | .uint32 | .uint64 => some 1
  | .int8 | .int32 | .int64 => some 2
  | .float32 | .float64 => some 4
  | .string => none

/-- NumPy `np.can_cast(a, b, casting='same_kind')`: a safe cast, or a cast
whose source kind does not rank above the target kind (so float64 -> float32
and int64 -> int8 are allowed, float -> int and signed -> unsigned are
not). -/
def canCastSameKind (a b : DType) : Bool :=
  safeCastDtype a b ||
    match kindRank a, kindRank b with
    | some ra, some rb => ra ≤ rb
    | _, _ => false

/-- NumPy `astype` value conversion for integer and bool targets: C-style
wrap-around into the target's range.  Values for float and string targets
are carried through unchanged in this integer-coded model (the claims proved
here evaluate float payloads only at values the conversions preserve). -/
def astypeVal (d : DType) (v : Int) : Int :=
  if d.isUnsignedInt then v % ((2 : Int) ^ d.intBits)
  else if d.isSignedInt then
    (v + (2 : Int) ^ (d.intBits - 1)) % ((2 : Int) ^ d.intBits) - (2 : Int) ^ (d.intBits - 1)
  else if d = .bool then (if v = 0 then 0 else 1)
  else v

/-- A NumPy array or scalar together with its own dtype, as
`np.asarray(value)` presents it to pack_tensor.  Element contents are
integer-coded. -/
structure NumValue where
  srcDtype : DType
  val : TensorValue Int
  deriving DecidableEq, Repr

/-- tensor_utils.pack_tensor with an explicit `dtype` argument over a
non-object input: cast the value with
`astype(dtype, casting='same_kind' if value.size else 'unsafe')` (a
disallowed same-kind cast raises TypeError; an empty value casts
unconditionally), record `value.shape`, then pack the flat payload —
compressed to its first element when `try_compress` is set and all elements
are equal, with StopIteration on an empty flat iterator. -/
def pack_tensorNum (v : NumValue) (dtype : DType) (tryCompress : Bool) :
    Except RpcError (Tensor Int) := do
  let casted ←
    if v.val.size ≠ 0 then
      if canCastSameKind v.srcDtype dtype then
        pure (match v.val with
          | .scalar a => TensorValue.scalar (astypeVal dtype a)
          | .array dims flat => TensorValue.array dims (flat.map (astypeVal dtype)))
      else .error (.typeError "Cannot cast array according to the rule same_kind")
    else
      pure (match v.val with
        | .scalar a => TensorValue.scalar (astypeVal dtype a)
        | .array dims flat => TensorValue.array dims (flat.map (astypeVal dtype)))
  let flat := casted.flatten
  let shape := casted.shapeInts
  if tryCompress then
    match flat with
    | [] => .error .stopIteration
    | a :: _ =>
      if flat.all (fun x => decide (x = a)) then pure ⟨shape, [a]⟩ else pure ⟨shape, flat⟩
  else pure ⟨shape, flat⟩

/-- C5 counterexample: packing the int64 scalar `2^40` with dtype int32 is a
narrowing cast that loses the value (the result wraps to 0), yet pack_tensor
accepts it — `same_kind` allows casts within the integer kind — where the
claim requires a type error for a narrowing cast that can lose values. -/
theorem C5_counterexample :
    pack_tensorNum ⟨.int64, .scalar (2 ^ 40)⟩ .int32 false = .ok ⟨[], [0]⟩ := by
  decide

/-- C5 (amended): pack_tensor's dtype cast succeeds exactly when the value is
empty or NumPy's same-kind rule allows the cast; that rule always allows
integer-to-float and float-to-float casts (including narrowing ones) and all
casts within the integer kinds — e.g. int64 to int32 — and rejects
kind-lowering casts (float-to-integer, signed-to-unsigned) with a type
error. -/
theorem C5_cast_rule :
    (∀ (v : NumValue) (d : DType),
      (pack_tensorNum v d false).isOk = true ↔
        (v.val.size = 0 ∨ canCastSameKind v.srcDtype d = true))
    ∧ (∀ a b : DType, a.isInteger = true → b.isFloat = true → canCastSameKind a b = true)
    ∧ (∀ a b : DType, a.isFloat = true → b.isFloat = true → canCastSameKind a b = true)
    ∧ canCastSameKind .int64 .int32 = true
    ∧ (∀ a b : DType, a.isFloat = true → b.isInteger = true → canCastSameKind a b = false)
    ∧ (∀ a b : DType, a.isSignedInt = true → b.isUnsignedInt = true →
        canCastSameKind a b = false) := by
  refine ⟨?_, by decide, by decide, by decide, by decide, by decide⟩
  intro v d
  by_cases hsz : v.val.size = 0
  · simp only [pack_tensorNum, hsz, ne_eq, not_true_eq_false, if_false, reduceIte]
    cases v.val with
    | scalar a => simp [Except.isOk, Except.toBool, Except.pure, Bind.bind, Except.bind, pure]
    | array dims flat =>
      simp [Except.isOk, Except.toBool, Except.pure, Bind.bind, Except.bind, pure]
  · by_cases hc : canCastSameKind v.srcDtype d = true
    · simp only [pack_tensorNum, if_pos hsz, if_pos hc]
      cases v.val with
      | scalar a =>
        simp [Except.isOk, Except.toBool, Except.pure, Bind.bind, Except.bind, pure, hc]
      | array dims flat =>
        simp [Except.isOk, Except.toBool, Except.pure, Bind.bind, Except.bind, pure, hc]
    · simp only [pack_tensorNum, if_pos hsz, if_neg hc]
      simp [Except.isOk, Except.toBool, Except.pure, Bind.bind, Except.bind, hsz, hc]

/-! ### Bounds model (tensor_spec_utils.py) -/

/-- The exact integer value of `np.finfo(np.float32).max`, `2^128 - 2^104`. -/
def float32MaxInt : Int := 340282346638528859811704183484516925440

/-- The exact integer value of `np.finfo(np.float64).max`, `2^1024 - 2^971`
(written as a numeral so that it evaluates without deep recursion). -/
def float64MaxInt : Int :=
  179769313486231570814527423731704356798070567525844996598917476803157260780028538760589558632766878171540458953514382464234321326889464182768467546703537516986049910576551282076245490090389328944075868508455133942304583236903222948165808559332123348274797826204144723168738177180919299881250404026184124858368

/-- `_np_range_info(np_type).min`: the dtype's natural minimum.  The float
extrema are the exact integer values of `np.finfo(np.float32/float64).min`.
Non-numeric dtypes have no range info (the callers check `isNumeric`
first). -/
def dtypeMinInt : DType → Int
  | .int8 => -(2 ^ 7)
  | .int32 => -(2 ^ 31)
  | .int64 => -(2 ^ 63)
  | .uint8 | .uint32 | .uint64 => 0
  | .float32 => -float32MaxInt
  | .float64 => -float64MaxInt
  | .bool | .string => 0

/-- `_np_range_info(np_type).max`. -/
def dtypeMaxInt : DType → Int
  | .int8 => 2 ^ 7 - 1
  | .int32 => 2 ^ 31 - 1
  | .int64 => 2 ^ 63 - 1
  | .uint8 => 2 ^ 8 - 1
  | .uint32 => 2 ^ 32 - 1
  | .uint64 => 2 ^ 64 - 1
  | .float32 => float32MaxInt
  | .float64 => float64MaxInt
  | .bool | .string => 0

/-- `np.can_cast(scalar, np_dtype, casting='safe')` for one element, as
`_can_cast` applies it: NumPy's value-based rule for a scalar admits the
value exactly when the target dtype can represent it, which for the integral
values arising here is the range check against the dtype's natural bounds. -/
def can_cast_value (v : Int) (d : DType) : Bool :=
  decide (dtypeMinInt d ≤ v) && decide (v ≤ dtypeMaxInt d)

/-- tensor_spec_utils._can_cast: every flat element must cast safely. -/
def can_cast_all (vs : List Int) (d : DType) : Bool := vs.all (can_cast_value · d)

/-- The min/max `Value` message of a TensorSpec: its payload oneof is unset,
one of the legacy scalar fields (float, double, int8, ..., uint64), or one of
the array fields (floats, int8s-as-bytes, ...); the field determines the
payload's dtype. -/
inductive BoundValue where
  | unset
  | scalarV (d : DType) (v : Int)
  | arrV (d : DType) (vs : List Int)
  deriving DecidableEq, Repr

/-- The dm_env_rpc TensorSpec proto. -/
structure TensorSpec where
  name : String
  dtype : DType
  shape : List Int
  min : BoundValue
  max : BoundValue
  deriving DecidableEq, Repr

/-- The payload-field-name prefix check of `bounds`
(`min_which.startswith(tensor_spec_type)`): with the actual field names
(float/floats, int8/int8s, ...) no distinct dtypes are prefix-related, so it
is the dtype equality of the payload field and the spec. -/
def boundPayloadMatches (p : BoundValue) (d : DType) : Bool :=
  match p with
  | .unset => true
  | .scalarV d0 _ => d0 = d
  | .arrV d0 _ => d0 = d

/-- NumPy `np.broadcast_to(scalar, shape)`: rejects negative dimensions,
otherwise fills an array of that shape. -/
def np_broadcast_to (x : Int) (shape : List Int) : Except RpcError (TensorValue Int) :=
  if shape.any (fun d => decide (d < 0)) then .error .broadcastNegativeDim
  else .ok (.array (shape.map Int.toNat) (List.replicate (shape.map Int.toNat).prod x))

/-- tensor_spec_utils._get_value: an unset payload falls back to `default`, a
legacy scalar payload is used directly — both broadcast against a non-empty
`shape`; an array payload reaches
`tensor_utils.unpack_proto(min_max_value, shape)`, a call with two positional
arguments to a function defined with one, which raises TypeError.  A
non-scalar result against a shape with a negative dimension is rejected
("variable length shapes can only have scalar ranges"). -/
def get_value (mv : BoundValue) (shape : List Int) (default : Int) :
    Except RpcError (TensorValue Int) := do
  let v ←
    match mv with
    | .unset =>
      if shape.isEmpty then pure (.scalar default) else np_broadcast_to default shape
    | .scalarV _ x =>
      if shape.isEmpty then pure (.scalar x) else np_broadcast_to x shape
    | .arrV _ _ =>
      .error (.typeError "unpack_proto takes 1 positional argument but 2 were given")
  if shape.any (fun d => decide (d < 0)) && decide (1 < v.size) then
    .error .variableShapeScalarRangesOnly
  else
    pure v

/-- `np.any(bs < as)` over the two bound values, with NumPy broadcasting of a
single element against the other operand. -/
def np_any_lt (bs as' : List Int) : Bool :=
  match bs, as' with
  | [b], _ => as'.any (fun x => decide (b < x))
  | _, [a] => bs.any (fun x => decide (x < a))
  | _, _ => (bs.zip as').any (fun p => decide (p.1 < p.2))

/-- The named tuple `Bounds` returned by tensor_spec_utils.bounds. -/
structure Bounds where
  min : TensorValue Int
  max : TensorValue Int
  deriving DecidableEq, Repr

/-- tensor_spec_utils.bounds: reject non-numeric dtypes; reject a min/max
payload field that does not match the spec dtype; resolve each bound via
`_get_value` with the dtype's natural extremum as default; require every
element to cast safely to the dtype; reject `min > max` anywhere; return the
(inclusive) bounds converted to the dtype (`np_type(bound)` is the identity
on values that passed the safe-cast check). -/
def bounds (s : TensorSpec) : Except RpcError Bounds := do
  if ¬ s.dtype.isNumeric then .error .nonNumericDtype
  else if ¬ boundPayloadMatches s.min s.dtype then .error (.boundTypeMismatch "min")
  else if ¬ boundPayloadMatches s.max s.dtype then .error (.boundTypeMismatch "max")
  else
    let minB ← get_value s.min s.shape (dtypeMinInt s.dtype)
    let maxB ← get_value s.max s.shape (dtypeMaxInt s.dtype)
    if ¬ (can_cast_all minB.flatten s.dtype && can_cast_all maxB.flatten s.dtype) then
      .error .cannotCastBounds
    else if np_any_lt maxB.flatten minB.flatten then .error .minLargerThanMax
    else pure ⟨minB, maxB⟩

/-- A `minimum`/`maximum` argument to set_bounds: a scalar or an iterable of
scalars (`np.asarray` of it is a 0-d value or a rank-1 array). -/
inductive MinMaxArg where
  | scalarArg (v : Int)
  | vecArg (vs : List Int)
  deriving DecidableEq, Repr

def MinMaxArg.flat : MinMaxArg → List Int
  | .scalarArg v => [v]
  | .vecArg vs => vs

def MinMaxArg.toSize : MinMaxArg → Nat
  | .scalarArg _ => 1
  | .vecArg vs => vs.length

/-- `np.asarray(arg, dtype=np_type)`: elementwise astype conversion. -/
def MinMaxArg.astype (d : DType) : MinMaxArg → MinMaxArg
  | .scalarArg v => .scalarArg (astypeVal d v)
  | .vecArg vs => .vecArg (vs.map (astypeVal d))

/-- set_bounds' shape compatibility check for one provided bound:
`arg.size != 1 and arg.shape != tuple(spec.shape)` — a 0-d or single-element
value always passes; a rank-1 array of n elements requires the spec shape to
be exactly `(n,)`. -/
def boundShapeIncompatible (arg : MinMaxArg) (specShape : List Int) : Bool :=
  match arg with
  | .scalarArg _ => false
  | .vecArg vs => decide (vs.length ≠ 1) && decide (specShape ≠ [(vs.length : Int)])

/-- The per-dtype packers writing into a bound `Value` slot.  int8/uint8 use
`_BytesPacker.pack`, which assigns the whole byte string and therefore
replaces any previous payload; every other dtype uses
`_RepeatedFieldPacker.pack`, whose `payload.array.extend(...)` appends to the
existing array when the slot already holds that same payload field, and
otherwise switches the oneof to this field holding only the new values. -/
def packer_pack (d : DType) (slot : BoundValue) (values : List Int) : BoundValue :=
  if d = .int8 ∨ d = .uint8 then .arrV d values
  else
    match slot with
    | .arrV d0 vs => if d0 = d then .arrV d (vs ++ values) else .arrV d values
    | _ => .arrV d values

/-- tensor_spec_utils.set_bounds: reject non-numeric dtypes; reject provided
values that cannot cast safely to the dtype; convert the provided values to
the dtype; check each provided bound's shape against the spec shape; reject
`max < min` anywhere when both are provided; then write each provided bound
into its slot with the dtype's packer, clearing the slot when the argument is
None. -/
def set_bounds (s : TensorSpec) (minimum maximum : Option MinMaxArg) :
    Except RpcError TensorSpec :=
  if ¬ s.dtype.isNumeric then .error .nonNumericDtype
  else if (minimum.elim false (fun m => ¬ can_cast_all m.flat s.dtype))
      || (maximum.elim false (fun m => ¬ can_cast_all m.flat s.dtype)) then
    .error .cannotCastBounds
  else
    let minC := minimum.map (MinMaxArg.astype s.dtype)
    let maxC := maximum.map (MinMaxArg.astype s.dtype)
    if minC.elim false (fun m => boundShapeIncompatible m s.shape) then
      .error (.incompatibleBoundShape "minimum")
    else if maxC.elim false (fun m => boundShapeIncompatible m s.shape) then
      .error (.incompatibleBoundShape "maximum")
    else if (match minC, maxC with
        | some mn, some mx => np_any_lt mx.flat mn.flat
        | _, _ => false) then
      .error .minLargerThanMax
    else
      .ok { s with
        min := match minC with
          | some mn => packer_pack s.dtype s.min mn.flat
          | none => .unset,
        max := match maxC with
          | some mx => packer_pack s.dtype s.max mx.flat
          | none => .unset }

/-- C4: with an array-form min payload whose element count matches the spec
shape's size exactly, `bounds` raises a TypeError — `_get_value` calls
`tensor_utils.unpack_proto(min_max_value, shape)` with two positional
arguments while `unpack_proto` is defined with one — instead of returning the
elementwise bound the claim (and the repo's own test
`test_min_n_shape`) requires. -/
theorem C4_array_bound_arity_bug :
    bounds ⟨"foo", .uint32, [2, 2], .arrV .uint32 [1, 2, 3, 4], .unset⟩
      = .error (.typeError "unpack_proto takes 1 positional argument but 2 were given") := by
  decide

/-- C6: set_bounds on a spec whose bound slots are already populated appends
instead of replacing — `_RepeatedFieldPacker.pack` extends the repeated
payload field — so after setting bounds (1, 2) and then (5, 6) the spec holds
min `[1, 5]` and max `[2, 6]`, not exactly the provided values `[5]` and
`[6]`. -/
theorem C6_set_bounds_appends :
    (set_bounds ⟨"test", .int32, [], .unset, .unset⟩
        (some (.scalarArg 1)) (some (.scalarArg 2)) >>= fun s1 =>
      set_bounds s1 (some (.scalarArg 5)) (some (.scalarArg 6)))
      = .ok ⟨"test", .int32, [], .arrV .int32 [1, 5], .arrV .int32 [2, 6]⟩ := by
  decide

/-- C8 counterexample: a numeric spec with a variable (-1) shape dimension
and no explicit bounds.  The claim says bounds returns the dtype's natural
range; the code instead raises — `np.broadcast_to(default, shape)` rejects
the negative dimension. -/
theorem C8_counterexample :
    bounds ⟨"", .uint32, [-1], .unset, .unset⟩ = .error .broadcastNegativeDim := by
  decide

/-- The dtype's natural range broadcast over the spec shape: the scalar
extremum for an empty shape, else the filled array. -/
def defaultBound (v : Int) (shape : List Int) : TensorValue Int :=
  if shape.isEmpty then .scalar v
  else .array (shape.map Int.toNat) (List.replicate (shape.map Int.toNat).prod v)

theorem dtype_extrema_castable : ∀ d : DType, d.isNumeric = true →
    can_cast_value (dtypeMinInt d) d = true ∧ can_cast_value (dtypeMaxInt d) d = true := by
  decide

theorem dtype_min_le_max : ∀ d : DType, ¬ dtypeMaxInt d < dtypeMinInt d := by decide

theorem get_value_unset (shape : List Int) (default : Int)
    (h : ∀ d ∈ shape, 0 ≤ d) :
    get_value .unset shape default = .ok (defaultBound default shape) := by
  have hany : (shape.any fun d => decide (d < 0)) = false := by
    rw [List.any_eq_false]
    intro d hd
    have := h d hd
    simp
    omega
  by_cases hempty : shape.isEmpty
  · simp [get_value, hempty, hany, defaultBound, Bind.bind, Except.bind, pure, Except.pure]
  · simp [get_value, hempty, hany, defaultBound, np_broadcast_to,
      Bind.bind, Except.bind, pure, Except.pure]

theorem flatten_defaultBound (v : Int) (shape : List Int) :
    (defaultBound v shape).flatten
      = List.replicate (if shape.isEmpty then 1 else (shape.map Int.toNat).prod) v := by
  by_cases h : shape.isEmpty <;> simp [defaultBound, h, TensorValue.flatten]

theorem can_cast_all_replicate (n : Nat) (v : Int) (d : DType)
    (hv : can_cast_value v d = true) :
    can_cast_all (List.replicate n v) d = true := by
  rw [can_cast_all, List.all_eq_true]
  intro x hx
  rw [(List.mem_replicate.mp hx).2]
  exact hv

theorem np_any_lt_replicate (n : Nat) (mx mn : Int) (h : ¬ mx < mn) :
    np_any_lt (List.replicate n mx) (List.replicate n mn) = false := by
  match n with
  | 0 => rfl
  | 1 => simp [np_any_lt, List.replicate_succ, h]
  | n + 2 =>
    simp only [List.replicate_succ]
    simp [np_any_lt, List.zip_replicate, List.any_replicate, h]

/-- C8 (amended): for every numeric TensorSpec with neither min nor max set
whose shape has no negative dimension, `bounds` returns the dtype's natural
representable range — the scalar (min, max) extrema for a scalar spec, and
the range broadcast across the shape otherwise; a variable (-1) dimension
with unset bounds instead raises (see the counterexample). -/
theorem C8_default_bounds (s : TensorSpec) (hn : s.dtype.isNumeric = true)
    (hmin : s.min = .unset) (hmax : s.max = .unset)
    (hsh : ∀ d ∈ s.shape, 0 ≤ d) :
    bounds s = .ok ⟨defaultBound (dtypeMinInt s.dtype) s.shape,
      defaultBound (dtypeMaxInt s.dtype) s.shape⟩ := by
  have hvmin := (dtype_extrema_castable s.dtype hn).1
  have hvmax := (dtype_extrema_castable s.dtype hn).2
  rw [bounds, hmin, hmax]
  rw [if_neg (by simp [hn])]
  rw [if_neg (by simp [boundPayloadMatches])]
  rw [if_neg (by simp [boundPayloadMatches])]
  rw [get_value_unset _ _ hsh, get_value_unset _ _ hsh]
  simp only [Bind.bind, Except.bind]
  rw [if_neg ?hcast]
  case hcast =>
    simp only [flatten_defaultBound]
    rw [can_cast_all_replicate _ _ _ hvmin, can_cast_all_replicate _ _ _ hvmax]
    simp
  rw [if_neg ?hlt]
  case hlt =>
    simp only [flatten_defaultBound]
    rw [np_any_lt_replicate _ _ _ (dtype_min_le_max s.dtype)]
    simp
  rfl

/-- C8 witness: a UINT32 spec with no explicit bounds yields (0, 2^32-1). -/
theorem C8_witness :
    bounds ⟨"", .uint32, [], .unset, .unset⟩ = .ok ⟨.scalar 0, .scalar 4294967295⟩ :=
  C8_default_bounds ⟨"", .uint32, [], .unset, .unset⟩ rfl rfl rfl (by decide)

/-! ### SpecManager (spec_manager.py) -/

/-- The shape test inside `_assert_shapes_match`: equal sizes, and every
tensor dimension equals the spec dimension or the spec dimension is negative
(variable length). -/
def shapes_match (tensorShape specShape : List Int) : Bool :=
  decide (tensorShape.length = specShape.length) &&
    (tensorShape.zip specShape).all (fun p => decide (p.1 = p.2) || decide (p.2 < 0))

/-- The shape rule as claim C7 words it: a spec dimension of `-1` matches any
length. -/
def shapes_match_claimed (tensorShape specShape : List Int) : Bool :=
  decide (tensorShape.length = specShape.length) &&
    (tensorShape.zip specShape).all (fun p => decide (p.1 = p.2) || decide (p.2 = -1))

/-- A SpecManager's state: the UID-to-TensorSpec map it was built from (its
name-keyed indices are derived lookups; construction guarantees distinct
names and at most one variable dimension per spec). -/
structure SpecManager where
  specs : List (Nat × TensorSpec)
  deriving DecidableEq, Repr

/-- The `_specs_by_name` / `_name_to_uid` lookup; `none` is the KeyError. -/
def SpecManager.name_to_entry (m : SpecManager) (name : String) : Option (Nat × TensorSpec) :=
  m.specs.find? (fun p => p.2.name == name)

/-- SpecManager.pack: for each name-value entry in order, look the spec up by
name (a missing name raises KeyError with that name), pack the value with the
spec's dtype, assert the packed tensor's shape against the spec's shape
(mismatch raises ValueError naming the spec, the produced shape and the spec
shape), and collect the UID-keyed packed tensors. -/
def SpecManager.pack (m : SpecManager) :
    List (String × NumValue) → Except RpcError (List (Nat × Tensor Int))
  | [] => .ok []
  | (name, v) :: rest =>
    match m.name_to_entry name with
    | none => .error (.keyNotFound name)
    | some (uid, spec) => do
      let t ← pack_tensorNum v spec.dtype false
      if shapes_match t.shape spec.shape then
        let tail ← m.pack rest
        pure ((uid, t) :: tail)
      else .error (.shapeMismatch spec.name t.shape spec.shape)

/-- SpecManager.pack exactly as claim C7 words it, with the `-1`-matches-any
shape rule. -/
def SpecManager.packClaimed (m : SpecManager) :
    List (String × NumValue) → Except RpcError (List (Nat × Tensor Int))
  | [] => .ok []
  | (name, v) :: rest =>
    match m.name_to_entry name with
    | none => .error (.keyNotFound name)
    | some (uid, spec) => do
      let t ← pack_tensorNum v spec.dtype false
      if shapes_match_claimed t.shape spec.shape then
        let tail ← m.packClaimed rest
        pure ((uid, t) :: tail)
      else .error (.shapeMismatch spec.name t.shape spec.shape)

theorem list_all_congr {α : Type} {l : List α} {p q : α → Bool}
    (h : ∀ a ∈ l, p a = q a) : l.all p = l.all q := by
  induction l with
  | nil => rfl
  | cons a t ih => simp_all

theorem shapes_match_eq_claimed (ts ss : List Int) (h : ∀ d ∈ ss, -1 ≤ d) :
    shapes_match ts ss = shapes_match_claimed ts ss := by
  rw [shapes_match, shapes_match_claimed]
  congr 1
  refine list_all_congr (fun p hp => ?_)
  have hmem : p.2 ∈ ss := (List.of_mem_zip hp).2
  have := h p.2 hmem
  congr 1
  exact decide_eq_decide.mpr (by omega)

/-- C7: on a SpecManager whose specs obey the data model (every shape
dimension at least `-1`), SpecManager.pack behaves exactly as the claim
states: a missing name raises KeyError naming it; each value is packed with
its spec's dtype; the packed shape is asserted against the spec shape with
`-1` matching any length, a mismatch raising ValueError naming the spec name
and both shapes; on success the UID-keyed packed tensors are returned. -/
theorem C7_spec_manager_pack (m : SpecManager)
    (hwf : ∀ p ∈ m.specs, ∀ d ∈ p.2.shape, -1 ≤ d)
    (entries : List (String × NumValue)) :
    m.pack entries = m.packClaimed entries := by
  induction entries with
  | nil => rfl
  | cons e rest ih =>
    obtain ⟨name, v⟩ := e
    rw [SpecManager.pack, SpecManager.packClaimed]
    cases hfind : m.name_to_entry name with
    | none => rfl
    | some p =>
      obtain ⟨uid, spec⟩ := p
      have hspec : ∀ d ∈ spec.shape, -1 ≤ d :=
        hwf (uid, spec) (List.mem_of_find?_eq_some hfind)
      cases hp : pack_tensorNum v spec.dtype false with
      | error e => simp [Bind.bind, Except.bind, hp]
      | ok t =>
        simp only [Bind.bind, Except.bind, hp]
        rw [shapes_match_eq_claimed t.shape spec.shape hspec, ih]

/-- C7 witness: a concrete manager and inputs — a missing name raises
KeyError under both readings. -/
theorem C7_witness :
    (SpecManager.pack ⟨[(1, ⟨"foo", .uint8, [], .unset, .unset⟩)]⟩
        [("unknown", ⟨.int64, .scalar 1⟩)])
      = (SpecManager.packClaimed ⟨[(1, ⟨"foo", .uint8, [], .unset, .unset⟩)]⟩
        [("unknown", ⟨.int64, .scalar 1⟩)]) :=
  C7_spec_manager_pack ⟨[(1, ⟨"foo", .uint8, [], .unset, .unset⟩)]⟩ (by decide)
    [("unknown", ⟨.int64, .scalar 1⟩)]

/-! ### Request/response channel (message_utils.py, connection.py) -/

/-- The payload fields of the EnvironmentRequest/EnvironmentResponse oneofs
(the seven native kinds plus the extension slot; the response-only `error`
slot is a separate constructor of `EnvironmentResponse`). -/
inductive MsgField where
  | create_world | join_world | step | reset | reset_world | leave_world | destroy_world
  | extension
  deriving DecidableEq, Repr

/-- Modelled from the spec: a `google.protobuf.Any` detail entry of an error
status (a self-describing wrapped payload); the google.rpc.Status proto is
not among the repository files. -/
structure AnyProto where
  type_url : String
  value : String
  deriving DecidableEq, Repr

/-- Modelled from the spec: the google.rpc.Status carried by the response
envelope's `error` slot — a status code, a message, and a detail list. -/
structure StatusProto where
  code : Int
  message : String
  details : List AnyProto
  deriving DecidableEq, Repr

/-- The typed protocol error raised by `Connection.send`, and the
contract-violation ValueError naming the expected and actual response
fields.  `error.DmEnvRpcError` wraps the whole status proto, exposing its
code, message and details. -/
inductive SendError where
  | dmEnvRpcError (status : StatusProto)
  | unexpectedResponse (expected actual : MsgField)
  | streamEnded
  deriving DecidableEq, Repr

/-- An EnvironmentResponse envelope: exactly one slot populated — either the
`error` slot with a status, or one payload field holding a response message
(payload contents abstracted by `π`). -/
inductive EnvironmentResponse (π : Type) where
  | error (status : StatusProto)
  | payload (field : MsgField) (msg : π)
  deriving DecidableEq, Repr

/-- An EnvironmentRequest envelope: one populated field holding the request
message. -/
structure EnvironmentRequest (ρ : Type) where
  field : MsgField
  msg : ρ
  deriving DecidableEq, Repr

/-- A native request message (or a packed extension), tagged with its kind —
`_MESSAGE_TYPE_TO_FIELD`, built once from the EnvironmentRequest descriptor,
maps the message's type to the envelope field of the same kind. -/
structure RequestMessage (ρ : Type) where
  kind : MsgField
  body : ρ
  deriving DecidableEq, Repr

/-- message_utils.pack_environment_request: an EnvironmentRequest with the
field for the request's type populated, returned together with that field
name. -/
def pack_environment_request {ρ : Type} (request : RequestMessage ρ) :
    EnvironmentRequest ρ × MsgField :=
  (⟨request.kind, request.body⟩, request.kind)

/-- message_utils.unpack_environment_response: if the populated slot is
`error`, raise DmEnvRpcError wrapping the status; if it is the expected
field, return its message; otherwise raise the ValueError naming the
expected and the actual field. -/
def unpack_environment_response {π : Type} (response : EnvironmentResponse π)
    (expectedFieldName : MsgField) : Except SendError π :=
  match response with
  | .error status => .error (.dmEnvRpcError status)
  | .payload f msg =>
    if f = expectedFieldName then .ok msg
    else .error (.unexpectedResponse expectedFieldName f)

/-- A Connection's stream state: the requests written so far and the
responses the server stream will yield, in order (the gRPC stream delivers
exactly one response per request; `read` on an exhausted stream raises). -/
structure Connection (ρ π : Type) where
  written : List (EnvironmentRequest ρ)
  responses : List (EnvironmentResponse π)
  deriving DecidableEq, Repr

/-- Connection.send: wrap the request into an EnvironmentRequest, write it to
the stream, read the next response envelope, and unpack it against the field
the request was sent in. -/
def Connection.send {ρ π : Type} (c : Connection ρ π) (request : RequestMessage ρ) :
    Except SendError π × Connection ρ π :=
  let (environmentRequest, fieldName) := pack_environment_request request
  match c.responses with
  | [] => (.error .streamEnded, { c with written := c.written ++ [environmentRequest] })
  | r :: rest =>
    (unpack_environment_response r fieldName,
      { written := c.written ++ [environmentRequest], responses := rest })

/-- C3: for the response envelope `Connection.send` reads back after writing
a request whose envelope field is F: an `error` payload raises the typed
protocol error carrying the server's status (code, message, detail list); a
populated field other than F raises the contract violation naming the
expected field F and the actual field; the field F itself returns the
message it holds. -/
theorem C3_send_response_dispatch {ρ π : Type} (c : Connection ρ π)
    (request : RequestMessage ρ) (status : StatusProto) (f : MsgField) (msg : π)
    (rest : List (EnvironmentResponse π)) :
    (c.responses = .error status :: rest →
      (c.send request).1 = .error (.dmEnvRpcError status)) ∧
    (c.responses = .payload f msg :: rest → f ≠ request.kind →
      (c.send request).1 = .error (.unexpectedResponse request.kind f)) ∧
    (c.responses = .payload request.kind msg :: rest →
      (c.send request).1 = .ok msg) := by
  refine ⟨fun h => ?_, fun h hf => ?_, fun h => ?_⟩
  · simp [Connection.send, pack_environment_request, h, unpack_environment_response]
  · simp [Connection.send, pack_environment_request, h, unpack_environment_response, hf]
  · simp [Connection.send, pack_environment_request, h, unpack_environment_response]

/-- C3 witness: the channel error scenario — a server answering a
create_world request with an error status raises the protocol error wrapping
it — applied at concrete inputs. -/
theorem C3_witness :
    ((Connection.send (⟨[], [.error ⟨3, "bad settings", []⟩]⟩ : Connection Unit Unit)
        ⟨.create_world, ()⟩).1 = .error (.dmEnvRpcError ⟨3, "bad settings", []⟩)) ∧
    ((Connection.send (⟨[], [.payload .leave_world ()]⟩ : Connection Unit Unit)
        ⟨.create_world, ()⟩).1
      = .error (.unexpectedResponse .create_world .leave_world)) :=
  ⟨(C3_send_response_dispatch (⟨[], [.error ⟨3, "bad settings", []⟩]⟩ : Connection Unit Unit)
      ⟨.create_world, ()⟩ ⟨3, "bad settings", []⟩ .step () []).1 rfl,
    (C3_send_response_dispatch (⟨[], [.payload .leave_world ()]⟩ : Connection Unit Unit)
      ⟨.create_world, ()⟩ ⟨0, "", []⟩ .leave_world () []).2.1 rfl (by decide)⟩

end DmEnvRpc
